import Mathlib

/-!
Verification of the SimpleArchiver archive engine (package archiver).

The Go source is shallowly embedded: pure string/path manipulation from the
Go standard library (path/filepath Clean, Join, Base, Dir, Rel, Match and
strings.HasPrefix/HasSuffix/Contains/ToLower) is translated to executable
Lean functions over character lists; the stateful compress and extract
pipelines are translated to explicit state passing, with filesystem and
codec effects represented by oracles and by explicit event traces.
Separator is modelled as the POSIX '/', matching the non-Windows build.
-/

namespace Archiver

/-- strings.HasPrefix: true when the second argument starts the first. -/
def strStartsWith (s pre : String) : Bool :=
  List.isPrefixOf pre.toList s.toList

/-- strings.HasSuffix: true when the second argument ends the first. -/
def strEndsWith (s suf : String) : Bool :=
  List.isSuffixOf suf.toList s.toList

/-- Helper for strings.Contains: does sub occur starting at any position? -/
def containsAux (sub : List Char) : List Char → Bool
  | [] => List.isPrefixOf sub []
  | c :: cs => List.isPrefixOf sub (c :: cs) || containsAux sub cs

/-- strings.Contains: substring containment. -/
def strContains (s sub : String) : Bool :=
  containsAux sub.toList s.toList

/-- strings.ToLower restricted to ASCII letters (the recognized archive
suffixes are all ASCII, so only ASCII case mapping is relevant here). -/
def goLowerChar (c : Char) : Char :=
  if 'A' ≤ c ∧ c ≤ 'Z' then Char.ofNat (c.toNat + 32) else c

/-- strings.ToLower on a whole string (ASCII case mapping). -/
def goLower (s : String) : String :=
  String.mk (s.toList.map goLowerChar)

/-- Split a character list on the path separator into raw segments
(empty segments are kept, mirroring byte-level scanning in filepath.Clean). -/
def splitSegs : List Char → List (List Char)
  | [] => [[]]
  | c :: cs =>
    let r := splitSegs cs
    if c = '/' then [] :: r
    else
      match r with
      | s :: ss => (c :: s) :: ss
      | [] => [[c]]

/-- The element-processing loop of filepath.Clean: skip empty and "."
segments, let ".." pop a previous segment (never above the root of a rooted
path, and accumulating at the front of a relative path). The accumulator is
kept reversed. -/
def cleanSegs (rooted : Bool) (segs : List (List Char)) : List (List Char) :=
  (segs.foldl
    (fun acc seg =>
      if seg = [] ∨ seg = ['.'] then acc
      else if seg = ['.', '.'] then
        match acc with
        | [] => if rooted then [] else [seg]
        | top :: rest => if top = ['.', '.'] then seg :: acc else rest
      else seg :: acc)
    []).reverse

/-- Join segments back with '/' separators. -/
def segsToChars : List (List Char) → List Char
  | [] => []
  | [s] => s
  | s :: rest => s ++ '/' :: segsToChars rest

/-- filepath.Clean on character lists. -/
def cleanChars (cs : List Char) : List Char :=
  if cs = [] then ['.']
  else
    let rooted := cs.head? = some '/'
    let body := segsToChars (cleanSegs rooted (splitSegs cs))
    if rooted then '/' :: body
    else if body = [] then ['.'] else body

/-- filepath.Clean. -/
def clean (s : String) : String :=
  String.mk (cleanChars s.toList)

/-- filepath.Join of two elements: nonempty elements joined with '/' and
then cleaned; all-empty input yields the empty string. -/
def goJoin (a b : String) : String :=
  if a = "" ∧ b = "" then ""
  else if a = "" then clean b
  else if b = "" then clean a
  else clean (a ++ "/" ++ b)

/-- filepath.Base: strip trailing separators, then take the last segment;
empty input gives ".", an all-separator input gives "/". -/
def basename (s : String) : String :=
  if s = "" then "."
  else
    let r := s.toList.reverse.dropWhile (fun c => c = '/')
    if r = [] then "/"
    else String.mk ((r.takeWhile (fun c => c ≠ '/')).reverse)

/-- filepath.Dir: everything up to and including the final separator,
cleaned ("." when there is no separator). -/
def goDir (s : String) : String :=
  let cs := s.toList
  let afterLen := (cs.reverse.takeWhile (fun c => c ≠ '/')).length
  clean (String.mk (cs.take (cs.length - afterLen)))

/-- Segments of an already-cleaned path, with the root marker removed. -/
def relSegs (s : String) : List (List Char) :=
  let cs := s.toList
  let cs := if cs.head? = some '/' then cs.tail else cs
  if cs = [] then [] else splitSegs cs

/-- Drop the longest common segment-wise prefix of two segment lists,
returning both remainders. -/
def dropCommon : List (List Char) → List (List Char) → List (List Char) × List (List Char)
  | a :: as, b :: bs => if a = b then dropCommon as bs else (a :: as, b :: bs)
  | as, bs => (as, bs)

/-- filepath.Rel on the POSIX build: clean both paths, require agreement on
rootedness, strip the common segment prefix, refuse when the base remainder
begins with "..", and otherwise emit one ".." per remaining base segment
followed by the target remainder. Errors are modelled as none. -/
def goRel (basep targp : String) : Option String :=
  let b := clean basep
  let t := clean targp
  if t = b then some "."
  else
    let b := if b = "." then "" else b
    let bRooted := b.toList.head? = some '/'
    let tRooted := t.toList.head? = some '/'
    if bRooted ≠ tRooted then none
    else
      let p := dropCommon (relSegs b) (relSegs t)
      if p.1.head? = some ['.', '.'] then none
      else some (String.mk (segsToChars (p.1.map (fun _ => ['.', '.']) ++ p.2)))

example : clean "/out/../x" = "/x" := by decide
example : clean "" = "." := by decide
example : clean "a/.." = "." := by decide
example : clean "../../x" = "../../x" := by decide
example : goJoin "/out" "../out2/f" = "/out2/f" := by decide
example : goJoin "/tmp/out" "../../etc/passwd" = "/etc/passwd" := by decide
example : goJoin "/e" "../../etc/passwd" = "/etc/passwd" := by decide
example : basename "a/b/c.log" = "c.log" := by decide
example : goDir "/data/proj" = "/data" := by decide
example : goRel "/data" "/data/proj/a.log" = some "proj/a.log" := by decide
example : goRel "." "x" = some "x" := by decide
example : goRel "a/b" "a" = some ".." := by decide
example : strStartsWith "/etc/passwd" "/e" = true := by decide
example : strStartsWith "/out2/f" "/out" = true := by decide

/-- One range endpoint inside a filepath.Match character class (getEsc):
fails on an empty remainder or a leading '-' or ']', and consumes a
backslash escape. -/
def rangeEsc : List Char → Option (Char × List Char)
  | [] => none
  | '-' :: _ => none
  | ']' :: _ => none
  | '\\' :: rest =>
    match rest with
    | [] => none
    | c :: rest2 => some (c, rest2)
  | c :: rest => some (c, rest)

/-- The range loop of a filepath.Match character class, fuelled by the
length of the remaining pattern (each iteration consumes at least one
character, so the fuel never runs out on the calls made below). Arguments:
fuel, character being matched, accumulated match, whether no range has been
seen yet, remaining pattern. Returns the accumulated result and the pattern
after the closing ']', or none for a malformed class. -/
def classRangesF (r : Char) : Nat → Bool → Bool → List Char → Option (Bool × List Char)
  | 0, _, _, _ => none
  | _ + 1, acc, first, ']' :: rest =>
    if first then none else some (acc, rest)
  | fuel + 1, acc, _, chunk =>
    match rangeEsc chunk with
    | none => none
    | some (lo, rest1) =>
      match rest1 with
      | '-' :: rest2 =>
        match rangeEsc rest2 with
        | none => none
        | some (hi, rest3) => classRangesF r fuel (acc || (lo ≤ r ∧ hi ≥ r)) false rest3
      | _ => classRangesF r fuel (acc || (lo ≤ r ∧ lo ≥ r)) false rest1

/-- A whole character class, entered just after '[': optional negation,
then at least one range. Returns whether the character matched and the
pattern after the class. -/
def classMatch (r : Char) (chunk : List Char) : Option (Bool × List Char) :=
  match chunk with
  | '^' :: rest =>
    match classRangesF r (rest.length + 1) false true rest with
    | none => none
    | some (m, after) => some (!m, after)
  | _ => classRangesF r (chunk.length + 1) false true chunk

/-- filepath.Match with Separator '/', fuelled by pattern length plus name
length plus one (every recursive step strictly shrinks that sum, so the
fuel suffices for the wrapper below). A malformed pattern never matches,
mirroring the ignored ErrBadPattern in shouldExclude. '*' matches any run
of non-separator characters, '?' one non-separator character, backslash
escapes a literal, and '[...]' is a character class. -/
def goMatchF : Nat → List Char → List Char → Bool
  | 0, _, _ => false
  | _ + 1, [], name => name.isEmpty
  | fuel + 1, '*' :: ps, name =>
    goMatchF fuel ps name ||
      (match name with
       | [] => false
       | c :: ns => c ≠ '/' && goMatchF fuel ('*' :: ps) ns)
  | fuel + 1, '?' :: ps, name =>
    (match name with
     | [] => false
     | c :: ns => c ≠ '/' && goMatchF fuel ps ns)
  | fuel + 1, '\\' :: ps, name =>
    (match ps, name with
     | pc :: ps2, c :: ns => pc = c && goMatchF fuel ps2 ns
     | _, _ => false)
  | fuel + 1, '[' :: ps, name =>
    (match name with
     | [] => false
     | c :: ns =>
       match classMatch c ps with
       | none => false
       | some (m, rest) => m && goMatchF fuel rest ns)
  | fuel + 1, pc :: ps, name =>
    (match name with
     | [] => false
     | c :: ns => pc = c && goMatchF fuel ps ns)

/-- filepath.Match on strings. -/
def goMatch (pat name : String) : Bool :=
  goMatchF (pat.toList.length + name.toList.length + 1) pat.toList name.toList

example : goMatch "*.log" "a.log" = true := by decide
example : goMatch "*.log" "keep.txt" = false := by decide
example : goMatch "*.log" "proj" = false := by decide
example : goMatch "a?c" "abc" = true := by decide
example : goMatch "[a-c]x" "bx" = true := by decide
example : goMatch "[^a-c]x" "dx" = true := by decide
example : goMatch "*" "anything" = true := by decide

/-- shouldExclude (archiver.go): a pattern containing '*' is glob-matched
against the final path segment; any other pattern matches by exact equality
with the final segment, or by occurring between separators inside the path,
or as the separator-preceded terminal segment. The Go loop returns on the
first matching pattern, which on booleans is List.any. -/
def shouldExclude (path : String) (excludes : List String) : Bool :=
  let name := basename path
  excludes.any (fun pattern =>
    if pattern.toList.contains '*' then
      goMatch pattern name
    else
      name = pattern ||
        strContains path ("/" ++ pattern ++ "/") ||
        strEndsWith path ("/" ++ pattern))

example : shouldExclude "proj/a.log" ["*.log", "node_modules"] = true := by decide
example : shouldExclude "proj/node_modules" ["*.log", "node_modules"] = true := by decide
example : shouldExclude "proj/keep.txt" ["*.log", "node_modules"] = false := by decide
example : shouldExclude "node_modules/x.js" ["node_modules"] = false := by decide
example : shouldExclude "a/node_modules/x.js" ["node_modules"] = true := by decide
example : shouldExclude "whatever" [] = false := by decide

/-- A filesystem tree for modelling filepath.WalkDir. -/
inductive FSNode where
  | file (name : String) (size : Nat)
  | dir (name : String) (children : List FSNode)

/-- Name of a node, as returned by the directory listing. -/
def nodeName : FSNode → String
  | .file nm _ => nm
  | .dir nm _ => nm

mutual

/-- The WalkDir callback of collectFiles at one visited node: compute the
path relative to the parent of the source root (falling back to the full
path when Rel fails), test both forms against shouldExclude, prune an
excluded node (counting it once), collect a kept file, and descend into a
kept directory. Result: collected paths, total size, excluded count. -/
def walkNode (source : String) (ex : List String) (path : String) :
    FSNode → List String × Nat × Nat
  | FSNode.file _ size =>
    let relPath := (goRel (goDir source) path).getD path
    if shouldExclude relPath ex || shouldExclude path ex then ([], 0, 1)
    else ([path], size, 0)
  | FSNode.dir _ children =>
    let relPath := (goRel (goDir source) path).getD path
    if shouldExclude relPath ex || shouldExclude path ex then ([], 0, 1)
    else walkChildren source ex path children

/-- Walk the children of a directory in listing order, accumulating. -/
def walkChildren (source : String) (ex : List String) (path : String) :
    List FSNode → List String × Nat × Nat
  | [] => ([], 0, 0)
  | c :: cs =>
    let r := walkNode source ex (goJoin path (nodeName c)) c
    let rest := walkChildren source ex path cs
    (r.1 ++ rest.1, r.2.1 + rest.2.1, r.2.2 + rest.2.2)

end

/-- collectFiles: stat the source (none models a stat error); a single
file is returned immediately with no exclusion filtering; a directory is
walked from its own path. -/
def collectFiles (source : String) (root : Option FSNode) (ex : List String) :
    Option (List String × Nat × Nat) :=
  match root with
  | none => none
  | some (FSNode.file _ size) => some ([source], size, 0)
  | some n => some (walkNode source ex source n)

/-- The directory tree of the exclusion-correctness scenario. -/
def demoTree : FSNode :=
  FSNode.dir "proj"
    [FSNode.file "a.log" 3,
     FSNode.dir "node_modules" [FSNode.file "x.js" 4],
     FSNode.file "keep.txt" 5]

example :
    collectFiles "/data/proj" (some demoTree) ["*.log", "node_modules"] =
      some (["/data/proj/keep.txt"], 5, 2) := by decide

/-- DetectArchiveFormat as in the archiver source under src: lower-case the
filename, then test the recognized suffixes in order; the empty string
means unrecognized. -/
def DetectArchiveFormat (filename : String) : String :=
  let lower := goLower filename
  if strEndsWith lower ".zip" then ".zip"
  else if strEndsWith lower ".tar.gz" || strEndsWith lower ".tgz" then ".tar.gz"
  else if strEndsWith lower ".tar.bz2" || strEndsWith lower ".tbz2" then ".tar.bz2"
  else if strEndsWith lower ".tar.xz" || strEndsWith lower ".txz" then ".tar.xz"
  else if strEndsWith lower ".tar.zst" || strEndsWith lower ".tzst" then ".tar.zst"
  else if strEndsWith lower ".tar.lz4" then ".tar.lz4"
  else if strEndsWith lower ".tar" then ".tar"
  else ""

/-- IsArchiveFile. -/
def IsArchiveFile (filename : String) : Bool :=
  DetectArchiveFormat filename ≠ ""

/-- Modelled from the spec: the current archiver.go is absent from src
(main.go sets CompressOptions.Password and ExtractOptions.Password and
calls archiver.Is7zAvailable, none of which the archiver file under src
declares); per the spec its format detection also recognizes the ".7z"
suffix, everything else as in DetectArchiveFormat. -/
def DetectArchiveFormatV2 (filename : String) : String :=
  let lower := goLower filename
  if strEndsWith lower ".7z" then ".7z"
  else DetectArchiveFormat filename

example : DetectArchiveFormatV2 "A.TAR.GZ" = ".tar.gz" := by decide
example : DetectArchiveFormatV2 "x.TgZ" = ".tar.gz" := by decide
example : DetectArchiveFormatV2 "x.7Z" = ".7z" := by decide
example : DetectArchiveFormatV2 "x.rar" = "" := by decide
example : DetectArchiveFormat "x.7z" = "" := by decide

/-- Error kinds of the engine (Go returns wrapped fmt.Errorf values; only
the kind and the offending name matter to the claims). -/
inductive ArchiveError where
  | sourceNotFound
  | collectFailed
  | emptyInput
  | unsupportedFormat
  | createFailed
  | openFailed
  | readHeaderFailed
  | addFileFailed (name : String)
  | cancelled
  | pathTraversal (name : String)
  | writeFailed (name : String)
  | wrongPassword
deriving DecidableEq

/-- CompressStats. The Go struct stores sizes as int64 and the rate as
float64; sizes are modelled as Nat and the rate as an exact rational. -/
structure CompressStats where
  TotalFiles : Nat
  ProcessedFiles : Nat
  TotalSize : Nat
  CompressedSize : Nat
  ExcludedFiles : Nat
  CurrentFile : String
  CompressionRate : ℚ
deriving DecidableEq

/-- One observable event of a compress run, in emission order: the
OnProgress callback, the OnStats snapshot (a value copy of the stats at
that moment), and the completed write of one entry into the archive. -/
inductive CEvent where
  | progress (current total : Nat) (file : String)
  | snapshot (stats : CompressStats)
  | write (file : String)
deriving DecidableEq

/-- Result of the per-entry compress loop. -/
structure CompressRun where
  events : List CEvent
  stats : CompressStats
  err : Option ArchiveError
deriving DecidableEq

/-- The shared per-entry loop of compressZip and compressTar (the six
compressors differ only in the codec writer wrapped around the output
file, which is external to the engine): at the top of each iteration the
context is polled (ctx i is true when cancellation is visible at the check
guarding the entry with index i); then the archive-relative path is
computed (falling back to the base name when Rel fails), the stats are
updated, OnProgress and OnStats are invoked, and only then is the entry
written, wok giving the success of that write. -/
def compressLoop (ctx : Nat → Bool) (wok : String → Bool) (base : String)
    (total : Nat) : Nat → List String → CompressStats → CompressRun
  | _, [], stats => ⟨[], stats, none⟩
  | i, file :: rest, stats =>
    if ctx i then ⟨[], stats, some ArchiveError.cancelled⟩
    else
      let relPath := (goRel base file).getD (basename file)
      let stats1 := { stats with ProcessedFiles := i + 1, CurrentFile := relPath }
      let evs := [CEvent.progress (i + 1) total relPath, CEvent.snapshot stats1]
      if wok file then
        let r := compressLoop ctx wok base total (i + 1) rest stats1
        ⟨evs ++ CEvent.write relPath :: r.events, r.stats, r.err⟩
      else ⟨evs, stats1, some (ArchiveError.addFileFailed relPath)⟩

/-- CompressOptions (without the Password field, which only the current
archiver.go has; the password path is modelled separately). -/
structure CompressOpts where
  Source : String
  Output : String
  Format : String
  Excludes : List String

/-- The environment a compress run interacts with: the tree at the source
path (none models a stat failure), whether os.Create succeeds, per-file
write success, and the size os.Stat reports for the produced output after
the adapter and the output file have been closed (none models a stat
failure there). -/
structure CompressWorld where
  fs : Option FSNode
  createOk : Bool
  wok : String → Bool
  outStat : Option Nat

/-- The formats accepted by the Compress switch. -/
def compressFormats : List String :=
  [".zip", ".tar.gz", ".tar.bz2", ".tar.xz", ".tar.zst", ".tar.lz4"]

/-- Compress: stat the source, collect files, fail on an empty list,
dispatch on the format, run the per-entry loop, and finally stat the
produced output to fill in the compressed size and the derived rate (the
rate is only computed when the total size is positive, and the size only
when the final stat succeeds). Returns the Go-style pair of a possibly-nil
stats pointer and a possibly-nil error. -/
def Compress (w : CompressWorld) (ctx : Nat → Bool) (opts : CompressOpts) :
    Option CompressStats × Option ArchiveError :=
  match w.fs with
  | none => (none, some ArchiveError.sourceNotFound)
  | some tree =>
    match collectFiles opts.Source (some tree) opts.Excludes with
    | none => (none, some ArchiveError.collectFailed)
    | some (files, totalSize, excludedCount) =>
      let stats0 : CompressStats :=
        ⟨files.length, 0, totalSize, 0, excludedCount, "", 0⟩
      if files.length = 0 then (none, some ArchiveError.emptyInput)
      else if compressFormats.contains opts.Format then
        if ¬ w.createOk then (none, some ArchiveError.createFailed)
        else
          let run := compressLoop ctx w.wok (goDir opts.Source) files.length 0 files stats0
          match run.err with
          | some e => (none, some e)
          | none =>
            match w.outStat with
            | some sz =>
              let rate : ℚ :=
                if run.stats.TotalSize > 0 then
                  ((run.stats.TotalSize : ℚ) - (sz : ℚ)) / (run.stats.TotalSize : ℚ) * 100
                else run.stats.CompressionRate
              (some { run.stats with CompressedSize := sz, CompressionRate := rate }, none)
            | none => (some run.stats, none)
      else (none, some ArchiveError.unsupportedFormat)

/-- ExtractStats. -/
structure ExtractStats where
  TotalFiles : Nat
  ProcessedFiles : Nat
  TotalSize : Nat
  ExtractedSize : Nat
  CurrentFile : String
deriving DecidableEq

/-- One observable event of an extract run, in emission order. mkdir and
writeFile record every directory or file materialized on disk. -/
inductive EEvent where
  | progress (current total : Nat) (file : String)
  | snapshot (stats : ExtractStats)
  | mkdir (path : String)
  | writeFile (path : String) (size : Nat)
  | symlink (linkname path : String)
deriving DecidableEq

/-- Result of an extraction loop. -/
structure ExtractRun where
  events : List EEvent
  stats : ExtractStats
  err : Option ArchiveError
deriving DecidableEq

/-- The type flag of a TAR header (other covers every flag the switch in
extractTarReader does not handle, which are silently skipped). -/
inductive TarType where
  | dir
  | reg
  | symlink
  | other
deriving DecidableEq

/-- One TAR entry as exposed by tar.Reader: stored name, type flag, the
number of bytes its content copies to disk, and the link target. -/
structure TarEntry where
  name : String
  typ : TarType
  size : Nat
  linkname : String
deriving DecidableEq

/-- The Path Safety Guard condition, exactly as extractZip and
extractTarReader apply it: the cleaned join of output root and stored
entry name must have the cleaned output root as a string prefix. -/
def guardOk (output name : String) : Bool :=
  strStartsWith (clean (goJoin output name)) (clean output)

/-- extractTarReader: on every iteration the context is polled first (ctx n
is true when cancellation is visible at the check made after n entries have
been processed; the poll also happens on the final iteration that discovers
the end of the archive); then the next header is read, the counters and
callbacks fire, the target path is joined and checked by the guard, and the
entry is materialized according to its type flag; symlink creation failures
are ignored by the code, so the event just records the attempt. At the end
of the archive TotalFiles is set to the number of entries processed. -/
def extractTarLoop (ctx : Nat → Bool) (output : String) :
    Nat → List TarEntry → ExtractStats → ExtractRun
  | n, [], stats =>
    if ctx n then ⟨[], stats, some ArchiveError.cancelled⟩
    else ⟨[], { stats with TotalFiles := n }, none⟩
  | n, e :: rest, stats =>
    if ctx n then ⟨[], stats, some ArchiveError.cancelled⟩
    else
      let stats1 := { stats with ProcessedFiles := n + 1, CurrentFile := e.name }
      let evs := [EEvent.progress (n + 1) 0 e.name, EEvent.snapshot stats1]
      let target := goJoin output e.name
      if ¬ guardOk output e.name then
        ⟨evs, stats1, some (ArchiveError.pathTraversal e.name)⟩
      else
        match e.typ with
        | TarType.dir =>
          let r := extractTarLoop ctx output (n + 1) rest stats1
          ⟨evs ++ EEvent.mkdir target :: r.events, r.stats, r.err⟩
        | TarType.reg =>
          let stats2 := { stats1 with ExtractedSize := stats1.ExtractedSize + e.size }
          let r := extractTarLoop ctx output (n + 1) rest stats2
          ⟨evs ++ EEvent.mkdir (goDir target) :: EEvent.writeFile target e.size :: r.events,
           r.stats, r.err⟩
        | TarType.symlink =>
          let r := extractTarLoop ctx output (n + 1) rest stats1
          ⟨evs ++ EEvent.mkdir (goDir target) :: EEvent.symlink e.linkname target :: r.events,
           r.stats, r.err⟩
        | TarType.other =>
          let r := extractTarLoop ctx output (n + 1) rest stats1
          ⟨evs ++ r.events, r.stats, r.err⟩

/-- One ZIP entry as exposed by zip.Reader: stored name, whether its mode
marks a directory, and its uncompressed size. -/
structure ZipEntry where
  name : String
  isDir : Bool
  size : Nat
deriving DecidableEq

/-- extractZip's per-entry loop: the entry count is known upfront, so the
progress total is the archive length; otherwise the same check order as the
TAR loop (poll, callbacks, join, guard, materialize), with the extracted
size accumulated after a file entry is written. No context poll follows
the final entry. -/
def extractZipLoop (ctx : Nat → Bool) (output : String) (total : Nat) :
    Nat → List ZipEntry → ExtractStats → ExtractRun
  | _, [], stats => ⟨[], stats, none⟩
  | i, e :: rest, stats =>
    if ctx i then ⟨[], stats, some ArchiveError.cancelled⟩
    else
      let stats1 := { stats with ProcessedFiles := i + 1, CurrentFile := e.name }
      let evs := [EEvent.progress (i + 1) total e.name, EEvent.snapshot stats1]
      let target := goJoin output e.name
      if ¬ guardOk output e.name then
        ⟨evs, stats1, some (ArchiveError.pathTraversal e.name)⟩
      else if e.isDir then
        let r := extractZipLoop ctx output total (i + 1) rest stats1
        ⟨evs ++ EEvent.mkdir target :: r.events, r.stats, r.err⟩
      else
        let stats2 := { stats1 with ExtractedSize := stats1.ExtractedSize + e.size }
        let r := extractZipLoop ctx output total (i + 1) rest stats2
        ⟨evs ++ EEvent.mkdir (goDir target) :: EEvent.writeFile target e.size :: r.events,
         r.stats, r.err⟩

/-- ExtractOptions (without the Password field of the current archiver). -/
structure ExtractOpts where
  Source : String
  Output : String

/-- The environment of an extract run: the size os.Stat reports for the
source archive (none models a stat failure), whether the output directory
can be created, whether the archive and its codec reader open, and the
entries the archive holds when read as ZIP or as TAR. -/
structure ExtractWorld where
  srcSize : Option Nat
  mkdirOutOk : Bool
  openOk : Bool
  zipEntries : List ZipEntry
  tarEntries : List TarEntry

/-- The TAR-based formats of the Extract switch. -/
def tarFormats : List String :=
  [".tar.gz", ".tar.bz2", ".tar.xz", ".tar.zst", ".tar.lz4", ".tar"]

/-- Extract as in the archiver source under src: stat the source, detect
the format from the filename suffix, create the output directory, dispatch
to the matching loop, and return nil stats alongside any error. -/
def Extract (w : ExtractWorld) (ctx : Nat → Bool) (opts : ExtractOpts) :
    Option ExtractStats × Option ArchiveError :=
  match w.srcSize with
  | none => (none, some ArchiveError.sourceNotFound)
  | some sz =>
    let format := DetectArchiveFormat opts.Source
    if format = "" then (none, some ArchiveError.unsupportedFormat)
    else if ¬ w.mkdirOutOk then (none, some ArchiveError.createFailed)
    else if ¬ w.openOk then (none, some ArchiveError.openFailed)
    else
      let stats0 : ExtractStats := ⟨0, 0, sz, 0, ""⟩
      let run :=
        if format = ".zip" then
          extractZipLoop ctx opts.Output w.zipEntries.length 0 w.zipEntries
            { stats0 with TotalFiles := w.zipEntries.length }
        else
          extractTarLoop ctx opts.Output 0 w.tarEntries stats0
      match run.err with
      | some e => (none, some e)
      | none => (some run.stats, none)

/-- Modelled from the spec: Extract in the current archiver.go (absent
from src) additionally dispatches the ".7z" format, whose read adapter
walks a known entry list like the ZIP one; everything else as in Extract. -/
def ExtractV2 (w : ExtractWorld) (ctx : Nat → Bool) (opts : ExtractOpts) :
    Option ExtractStats × Option ArchiveError :=
  match w.srcSize with
  | none => (none, some ArchiveError.sourceNotFound)
  | some sz =>
    let format := DetectArchiveFormatV2 opts.Source
    if format = "" then (none, some ArchiveError.unsupportedFormat)
    else if ¬ w.mkdirOutOk then (none, some ArchiveError.createFailed)
    else if ¬ w.openOk then (none, some ArchiveError.openFailed)
    else
      let stats0 : ExtractStats := ⟨0, 0, sz, 0, ""⟩
      let run :=
        if format = ".zip" ∨ format = ".7z" then
          extractZipLoop ctx opts.Output w.zipEntries.length 0 w.zipEntries
            { stats0 with TotalFiles := w.zipEntries.length }
        else
          extractTarLoop ctx opts.Output 0 w.tarEntries stats0
      match run.err with
      | some e => (none, some e)
      | none => (some run.stats, none)

/-- Modelled from the spec: one stored ZIP entry of the current archiver.go
(absent from src; main.go sets CompressOptions.Password). When a password
is supplied the ZIP adapter applies AES-256 per-entry content encryption;
the stored entry records whether it is encrypted and under which key. -/
structure ZipStoredEntry where
  name : String
  data : List Nat
  aes256 : Bool
  key : String
deriving DecidableEq

/-- Modelled from the spec: the ZIP adapter's per-entry write with an
optional password; an empty password leaves the entry unencrypted. -/
def zipAddFile (password name : String) (data : List Nat) : ZipStoredEntry :=
  ⟨name, data, password != "", password⟩

/-- Modelled from the spec: the uniform write-one-entry contract across
adapters; every non-ZIP adapter ignores the password (their writers take no
password at all) and raises no error because of it. -/
def adapterAddFile (format password name : String) (data : List Nat) : ZipStoredEntry :=
  if format = ".zip" then zipAddFile password name data
  else ⟨name, data, false, ""⟩

/-- Modelled from the spec: opening one stored ZIP entry for extraction;
decrypting an AES-256 entry with the wrong password surfaces WrongPassword
rather than a generic I/O error. -/
def zipOpenEntry (password : String) (e : ZipStoredEntry) : Except ArchiveError (List Nat) :=
  if e.aes256 then
    if password = e.key then Except.ok e.data
    else Except.error ArchiveError.wrongPassword
  else Except.ok e.data

/-- A cleaned path lies within a root directory when it equals the root or
extends it past a separator (the component-wise meaning of being inside the
output directory, used to judge the string-prefix guard). -/
def isWithin (root p : String) : Bool :=
  p = root || strStartsWith p (root ++ "/")

/-- The zeroed extraction stats extractTarReader starts from. -/
def zeroExtract : ExtractStats := ⟨0, 0, 0, 0, ""⟩

/-- Claim C9: the extraction path-safety check is a plain string-prefix
test on cleaned paths, not a path-component test: with output root "/out"
and stored entry name "../out2/f" the cleaned target is "/out2/f", the
guard accepts it although it lies outside the output directory, and a TAR
archive holding that entry extracts without error, writing /out2/f. -/
theorem C9_guard_string_not_component :
    clean (goJoin "/out" "../out2/f") = "/out2/f" ∧
    guardOk "/out" "../out2/f" = true ∧
    isWithin "/out" "/out2/f" = false ∧
    (extractTarLoop (fun _ => false) "/out" 0
        [⟨"../out2/f", TarType.reg, 7, ""⟩] zeroExtract).err = none ∧
    EEvent.writeFile "/out2/f" 7 ∈
      (extractTarLoop (fun _ => false) "/out" 0
        [⟨"../out2/f", TarType.reg, 7, ""⟩] zeroExtract).events := by
  decide

/-- Claim C5: the exclusion test is true exactly when some pattern matches;
a pattern containing the wildcard character is glob-matched against the
path's final segment, any other pattern matches by equality with the final
segment or by occurring as a separator-bounded or terminal path segment;
the empty pattern list never excludes (the Go loop returns on the first
match, which for a pure boolean result is List.any). -/
theorem C5_shouldExclude_characterization (path : String) (excludes : List String) :
    shouldExclude path [] = false ∧
    (shouldExclude path excludes = true ↔
      ∃ p ∈ excludes,
        (p.toList.contains '*' = true ∧ goMatch p (basename path) = true) ∨
        (p.toList.contains '*' = false ∧
          (basename path = p ∨ strContains path ("/" ++ p ++ "/") = true ∨
            strEndsWith path ("/" ++ p) = true))) := by
  constructor
  · rfl
  · simp only [shouldExclude, List.any_eq_true]
    refine exists_congr fun p => and_congr_right fun _ => ?_
    by_cases hc : '*' ∈ p.data
    · simp [String.toList, hc]
    · simp [String.toList, hc, or_assoc]

/-- Claim C3: with a password supplied, the ZIP adapter applies AES-256
per-entry encryption, every non-ZIP adapter produces the same entry as it
would with no password and raises no error, extracting with the correct
password succeeds, and extracting with a wrong password fails with
WrongPassword rather than a generic I/O error. -/
theorem C3_password_policy (pw q name fmt : String) (data : List Nat)
    (hpw : pw ≠ "") (hq : q ≠ pw) (hfmt : fmt ≠ ".zip") :
    (zipAddFile pw name data).aes256 = true ∧
    adapterAddFile fmt pw name data = adapterAddFile fmt "" name data ∧
    zipOpenEntry pw (zipAddFile pw name data) = Except.ok data ∧
    zipOpenEntry q (zipAddFile pw name data) = Except.error ArchiveError.wrongPassword := by
  refine ⟨?_, ?_, ?_, ?_⟩
  · simp [zipAddFile, hpw]
  · simp [adapterAddFile, hfmt]
  · simp [zipOpenEntry, zipAddFile, hpw]
  · simp [zipOpenEntry, zipAddFile, hpw, hq]

/-- Witness for C3 at the spec's own test vector: password "secret",
wrong password "wrong", a tar.gz adapter for the ignore-policy conjunct. -/
theorem C3_password_policy_witness :
    (zipAddFile "secret" "a.txt" [1, 2, 3]).aes256 = true ∧
    adapterAddFile ".tar.gz" "secret" "a.txt" [1, 2, 3] =
      adapterAddFile ".tar.gz" "" "a.txt" [1, 2, 3] ∧
    zipOpenEntry "secret" (zipAddFile "secret" "a.txt" [1, 2, 3]) = Except.ok [1, 2, 3] ∧
    zipOpenEntry "wrong" (zipAddFile "secret" "a.txt" [1, 2, 3]) =
      Except.error ArchiveError.wrongPassword :=
  C3_password_policy "secret" "wrong" "a.txt" ".tar.gz" [1, 2, 3]
    (by decide) (by decide) (by decide)

/-- Claim C6: an excluded directory is pruned whole, counted exactly once,
with no descent into its subtree; an excluded file is counted once and
omitted; and on the concrete tree a.log, node_modules/x.js, keep.txt with
patterns *.log and node_modules, only keep.txt is collected and the
excluded count is 2. -/
theorem C6_exclusion_pruning (source path nm : String) (ex : List String)
    (ch : List FSNode) (sz : Nat)
    (h : (shouldExclude ((goRel (goDir source) path).getD path) ex ||
          shouldExclude path ex) = true) :
    walkNode source ex path (FSNode.dir nm ch) = ([], 0, 1) ∧
    walkNode source ex path (FSNode.file nm sz) = ([], 0, 1) ∧
    collectFiles "/data/proj" (some demoTree) ["*.log", "node_modules"] =
      some (["/data/proj/keep.txt"], 5, 2) := by
  refine ⟨?_, ?_, by decide⟩
  · simp [walkNode, h]
  · simp [walkNode, h]

/-- Witness for C6 at the node_modules directory of the concrete tree. -/
theorem C6_exclusion_pruning_witness :
    walkNode "/data/proj" ["*.log", "node_modules"] "/data/proj/node_modules"
        (FSNode.dir "node_modules" [FSNode.file "x.js" 4]) = ([], 0, 1) ∧
    walkNode "/data/proj" ["*.log", "node_modules"] "/data/proj/node_modules"
        (FSNode.file "node_modules" 4) = ([], 0, 1) ∧
    collectFiles "/data/proj" (some demoTree) ["*.log", "node_modules"] =
      some (["/data/proj/keep.txt"], 5, 2) :=
  C6_exclusion_pruning "/data/proj" "/data/proj/node_modules" "node_modules"
    ["*.log", "node_modules"] [FSNode.file "x.js" 4] 4 (by decide)

/-- Claim C10: whenever Compress or Extract returns a non-nil error the
returned stats value is nil; equivalently, every result has a nil stats or
a nil error, over all environments, contexts and options (covering the
missing-source, collection-failure, empty-input, unsupported-format,
creation-failure, per-entry I/O failure, traversal and cancellation
paths). -/
theorem C10_error_implies_nil_stats (w : CompressWorld) (ctx : Nat → Bool)
    (opts : CompressOpts) (w2 : ExtractWorld) (ctx2 : Nat → Bool)
    (opts2 : ExtractOpts) :
    ((Compress w ctx opts).1 = none ∨ (Compress w ctx opts).2 = none) ∧
    ((Extract w2 ctx2 opts2).1 = none ∨ (Extract w2 ctx2 opts2).2 = none) := by
  constructor
  · unfold Compress
    rcases hfs : w.fs with _ | tree
    · simp
    rcases hcf : collectFiles opts.Source (some tree) opts.Excludes with _ | ⟨files, totalSize, excl⟩
    · simp [hcf]
    by_cases h0 : files.length = 0
    · simp [hcf, h0]
    by_cases hf : opts.Format ∈ compressFormats
    · by_cases hcr : w.createOk
      · rcases herr : (compressLoop ctx w.wok (goDir opts.Source) files.length 0 files
            ⟨files.length, 0, totalSize, 0, excl, "", 0⟩).err with _ | e
        · rcases hos : w.outStat with _ | sz <;> simp [hcf, h0, hf, hcr, herr, hos]
        · simp [hcf, h0, hf, hcr, herr]
      · simp [hcf, h0, hf, hcr]
    · simp [hcf, h0, hf]
  · unfold Extract
    rcases hs : w2.srcSize with _ | sz
    · simp
    by_cases hfmt : DetectArchiveFormat opts2.Source = ""
    · simp [hs, hfmt]
    by_cases hmk : w2.mkdirOutOk
    · by_cases hop : w2.openOk
      · by_cases hz : DetectArchiveFormat opts2.Source = ".zip"
        · rcases herr : (extractZipLoop ctx2 opts2.Output w2.zipEntries.length 0 w2.zipEntries
              ⟨w2.zipEntries.length, 0, sz, 0, ""⟩).err with _ | e <;>
            simp [hs, hfmt, hmk, hop, hz, herr]
        · rcases herr : (extractTarLoop ctx2 opts2.Output 0 w2.tarEntries
              ⟨0, 0, sz, 0, ""⟩).err with _ | e <;>
            simp [hs, hfmt, hmk, hop, hz, herr]
      · simp [hs, hfmt, hmk, hop]
    · simp [hs, hfmt, hmk]

/-- The suffixes the current engine recognizes when detecting an archive
format from a filename. -/
def recognizedSuffixes : List String :=
  [".zip", ".tar.gz", ".tgz", ".tar.bz2", ".tbz2", ".tar.xz", ".txz",
   ".tar.zst", ".tzst", ".tar.lz4", ".tar", ".7z"]

/-- Claim C2: extraction detects the archive format purely from the
filename suffix, case-insensitively: a format is recognized exactly when
the lower-cased name ends with one of the twelve recognized suffixes,
detection depends only on the lower-cased name, and when no suffix matches
Extract fails with UnsupportedFormat (for an existing source). -/
theorem C2_suffix_format_detection :
    (∀ s, DetectArchiveFormatV2 s ≠ "" ↔
      ∃ suf ∈ recognizedSuffixes, strEndsWith (goLower s) suf = true) ∧
    (∀ s t, goLower s = goLower t →
      DetectArchiveFormatV2 s = DetectArchiveFormatV2 t) ∧
    (∀ w ctx opts sz, w.srcSize = some sz →
      DetectArchiveFormatV2 opts.Source = "" →
      ExtractV2 w ctx opts = (none, some ArchiveError.unsupportedFormat)) := by
  refine ⟨?_, ?_, ?_⟩
  · intro s
    unfold DetectArchiveFormatV2 DetectArchiveFormat
    simp only [recognizedSuffixes]
    split_ifs with h1 h2 h3 h4 h5 h6 h7 h8 <;> simp_all <;> tauto
  · intro s t h
    unfold DetectArchiveFormatV2 DetectArchiveFormat
    rw [h]
  · intro w ctx opts sz hs hd
    unfold ExtractV2
    rw [hs, hd]
    simp

/-- Witness for C2 at a source that exists but has an unrecognized
suffix. -/
theorem C2_suffix_format_detection_witness :
    ExtractV2 ⟨some 10, true, true, [], []⟩ (fun _ => false) ⟨"archive.rar", "/out"⟩ =
      (none, some ArchiveError.unsupportedFormat) :=
  C2_suffix_format_detection.2.2 ⟨some 10, true, true, [], []⟩ (fun _ => false)
    ⟨"archive.rar", "/out"⟩ 10 rfl (by decide)

/-- The compress loop touches only ProcessedFiles and CurrentFile; every
other stats field survives unchanged. -/
theorem compressLoop_preserves (ctx : Nat → Bool) (wok : String → Bool)
    (base : String) (total : Nat) (files : List String) (i : Nat)
    (st : CompressStats) :
    (compressLoop ctx wok base total i files st).stats.TotalFiles = st.TotalFiles ∧
    (compressLoop ctx wok base total i files st).stats.TotalSize = st.TotalSize ∧
    (compressLoop ctx wok base total i files st).stats.ExcludedFiles = st.ExcludedFiles ∧
    (compressLoop ctx wok base total i files st).stats.CompressionRate = st.CompressionRate := by
  induction files generalizing i st with
  | nil => simp [compressLoop]
  | cons f rest ih =>
    by_cases hc : ctx i
    · simp [compressLoop, hc]
    · by_cases hw : wok f
      · simpa [compressLoop, hc, hw] using ih (i + 1) _
      · simp [compressLoop, hc, hw]

/-- A compress loop that finishes without error has processed every entry:
its final ProcessedFiles is the start index plus the number of entries
(unchanged when there are none). -/
theorem compressLoop_success_processed (ctx : Nat → Bool) (wok : String → Bool)
    (base : String) (total : Nat) (files : List String) (i : Nat)
    (st : CompressStats)
    (h : (compressLoop ctx wok base total i files st).err = none) :
    (compressLoop ctx wok base total i files st).stats.ProcessedFiles =
      if files.isEmpty then st.ProcessedFiles else i + files.length := by
  induction files generalizing i st with
  | nil => simp [compressLoop]
  | cons f rest ih =>
    by_cases hc : ctx i
    · simp [compressLoop, hc] at h
    · by_cases hw : wok f
      · simp only [compressLoop, hc, hw, if_true, if_false, Bool.false_eq_true,
          not_false_eq_true] at h ⊢
        rw [ih (i + 1) _ (by simpa using h)]
        cases rest with
        | nil => simp
        | cons g r => simp; omega
      · simp [compressLoop, hc, hw] at h

/-- Claim C7: a compress operation that completes successfully (and whose
final stat of the output succeeds, reporting size sz) returns stats with
processedFiles equal to totalFiles, compressedSize equal to the produced
output file's on-disk size, and compressionRate equal to
(totalSize - compressedSize) / totalSize * 100, or 0 when totalSize is 0
(the float64 rate is modelled as an exact rational). -/
theorem C7_compress_final_stats (w : CompressWorld) (ctx : Nat → Bool)
    (opts : CompressOpts) (st : CompressStats) (sz : Nat)
    (hout : w.outStat = some sz)
    (h : Compress w ctx opts = (some st, none)) :
    st.ProcessedFiles = st.TotalFiles ∧
    st.CompressedSize = sz ∧
    st.CompressionRate =
      (if st.TotalSize > 0 then
        ((st.TotalSize : ℚ) - (st.CompressedSize : ℚ)) / (st.TotalSize : ℚ) * 100
      else 0) := by
  unfold Compress at h
  rcases hfs : w.fs with _ | tree
  · rw [hfs] at h; simp at h
  simp only [hfs] at h
  rcases hcf : collectFiles opts.Source (some tree) opts.Excludes with _ | ⟨files, totalSize, excl⟩
  · rw [hcf] at h; simp at h
  simp only [hcf] at h
  by_cases h0 : files.length = 0
  · simp [h0] at h
  by_cases hf : opts.Format ∈ compressFormats
  case neg => simp [h0, hf] at h
  by_cases hcr : w.createOk = true
  case neg => simp [h0, hf, hcr] at h
  rcases herr : (compressLoop ctx w.wok (goDir opts.Source) files.length 0 files
      ⟨files.length, 0, totalSize, 0, excl, "", 0⟩).err with _ | e
  swap
  · simp [h0, hf, hcr, herr] at h
  simp only [h0, hf, hcr, herr, hout, List.elem_iff, iff_true, if_true, if_false,
    not_true_eq_false, ite_true, ite_false, Bool.true_eq_false, eq_self_iff_true] at h
  have hpres := compressLoop_preserves ctx w.wok (goDir opts.Source) files.length files 0
      ⟨files.length, 0, totalSize, 0, excl, "", 0⟩
  have hproc := compressLoop_success_processed ctx w.wok (goDir opts.Source) files.length files 0
      ⟨files.length, 0, totalSize, 0, excl, "", 0⟩ herr
  have hne : files.isEmpty = false := by
    cases files with
    | nil => exact absurd rfl h0
    | cons a l => rfl
  rw [hne] at hproc
  simp only [if_false, Bool.false_eq_true] at hproc
  obtain ⟨hTF, hTS, hEX, hCR⟩ := hpres
  have hfst := congrArg Prod.fst h
  have hst := Option.some_injective _ hfst
  subst hst
  refine ⟨?_, rfl, ?_⟩
  · simp only [hproc, hTF]
    simp
  · simp only [hTS, hCR]

/-- Witness for C7: a one-file source of size 0 compressed to a two-byte
zip; the final stats report 1 of 1 files processed, compressed size 2, and
rate 0 because the total size is 0. -/
theorem C7_compress_final_stats_witness :
    (⟨1, 1, 0, 2, 0, "f", 0⟩ : CompressStats).ProcessedFiles =
      (⟨1, 1, 0, 2, 0, "f", 0⟩ : CompressStats).TotalFiles ∧
    (⟨1, 1, 0, 2, 0, "f", 0⟩ : CompressStats).CompressedSize = 2 ∧
    (⟨1, 1, 0, 2, 0, "f", 0⟩ : CompressStats).CompressionRate =
      (if (⟨1, 1, 0, 2, 0, "f", 0⟩ : CompressStats).TotalSize > 0 then
        (((⟨1, 1, 0, 2, 0, "f", 0⟩ : CompressStats).TotalSize : ℚ) -
            ((⟨1, 1, 0, 2, 0, "f", 0⟩ : CompressStats).CompressedSize : ℚ)) /
          ((⟨1, 1, 0, 2, 0, "f", 0⟩ : CompressStats).TotalSize : ℚ) * 100
      else 0) :=
  C7_compress_final_stats
    ⟨some (FSNode.file "f" 0), true, fun _ => true, some 2⟩ (fun _ => false)
    ⟨"/src/f", "/out.zip", ".zip", []⟩ ⟨1, 1, 0, 2, 0, "f", 0⟩ 2
    rfl (by decide)

/-- The event trace the compress loop produces on a failure-free run,
written out entry by entry: for the entry with index i it emits OnProgress,
then the stats snapshot carrying ProcessedFiles = i + 1, and only after
both callbacks the write of that entry. -/
def compressTrace (base : String) (total : Nat) : Nat → List String → CompressStats → List CEvent
  | _, [], _ => []
  | i, f :: rest, stats =>
    let rel := (goRel base f).getD (basename f)
    let st1 := { stats with ProcessedFiles := i + 1, CurrentFile := rel }
    CEvent.progress (i + 1) total rel :: CEvent.snapshot st1 :: CEvent.write rel ::
      compressTrace base total (i + 1) rest st1

/-- ProcessedFiles counters of the snapshots of a compress run, in
emission order. -/
def snapCounts : List CEvent → List Nat
  | [] => []
  | CEvent.snapshot s :: r => s.ProcessedFiles :: snapCounts r
  | _ :: r => snapCounts r

/-- The event trace the TAR extraction loop produces on a failure-free run
over accepted entries: per entry, OnProgress, then the snapshot, and only
then the materialization events of that entry. -/
def extractTrace (output : String) : Nat → List TarEntry → ExtractStats → List EEvent
  | _, [], _ => []
  | n, e :: rest, stats =>
    let st1 := { stats with ProcessedFiles := n + 1, CurrentFile := e.name }
    let target := goJoin output e.name
    EEvent.progress (n + 1) 0 e.name :: EEvent.snapshot st1 ::
      (match e.typ with
       | TarType.dir => EEvent.mkdir target :: extractTrace output (n + 1) rest st1
       | TarType.reg => EEvent.mkdir (goDir target) :: EEvent.writeFile target e.size ::
           extractTrace output (n + 1) rest
             { st1 with ExtractedSize := st1.ExtractedSize + e.size }
       | TarType.symlink => EEvent.mkdir (goDir target) :: EEvent.symlink e.linkname target ::
           extractTrace output (n + 1) rest st1
       | TarType.other => extractTrace output (n + 1) rest st1)

/-- ProcessedFiles counters of the snapshots of an extract run, in
emission order. -/
def snapCountsE : List EEvent → List Nat
  | [] => []
  | EEvent.snapshot s :: r => s.ProcessedFiles :: snapCountsE r
  | _ :: r => snapCountsE r

/-- On a failure-free run the compress loop emits exactly its per-entry
trace and no error. -/
theorem compressLoop_trace_eq (base : String) (total : Nat) (files : List String)
    (i : Nat) (st : CompressStats) :
    (compressLoop (fun _ => false) (fun _ => true) base total i files st).events =
      compressTrace base total i files st ∧
    (compressLoop (fun _ => false) (fun _ => true) base total i files st).err = none := by
  induction files generalizing i st with
  | nil => simp [compressLoop, compressTrace]
  | cons f rest ih =>
    simp only [compressLoop, compressTrace, if_false, if_true, Bool.false_eq_true,
      not_false_eq_true]
    constructor
    · simp [(ih (i + 1) _).1]
    · simp [(ih (i + 1) _).2]

/-- Snapshot counters of a compress trace are consecutive from the start
index plus one. -/
theorem snapCounts_compressTrace (base : String) (total : Nat) (files : List String)
    (i : Nat) (st : CompressStats) :
    snapCounts (compressTrace base total i files st) =
      List.range' (i + 1) files.length 1 := by
  induction files generalizing i st with
  | nil => simp [compressTrace, snapCounts]
  | cons f rest ih =>
    simp [compressTrace, snapCounts, List.range'_succ, ih (i + 1) _]

/-- On a run over accepted entries the TAR extraction loop emits exactly
its per-entry trace and no error. -/
theorem extractTarLoop_trace_eq (output : String) (entries : List TarEntry) :
    ∀ (n : Nat) (st : ExtractStats),
    (∀ e ∈ entries, guardOk output e.name = true) →
    (extractTarLoop (fun _ => false) output n entries st).events =
      extractTrace output n entries st ∧
    (extractTarLoop (fun _ => false) output n entries st).err = none := by
  induction entries with
  | nil => intro n st _; simp [extractTarLoop, extractTrace]
  | cons e rest ih =>
    intro n st h
    have hg := h e (List.mem_cons_self e rest)
    have hrest := fun x hx => h x (List.mem_cons_of_mem e hx)
    rcases he : e.typ <;>
      simp [extractTarLoop, extractTrace, hg, he,
        (ih (n + 1) _ hrest).1, (ih (n + 1) _ hrest).2]

/-- Snapshot counters of a TAR extraction trace are consecutive from the
start count plus one. -/
theorem snapCountsE_extractTrace (output : String) (entries : List TarEntry) :
    ∀ (n : Nat) (st : ExtractStats),
    snapCountsE (extractTrace output n entries st) =
      List.range' (n + 1) entries.length 1 := by
  induction entries with
  | nil => intro n st; simp [extractTrace, snapCountsE]
  | cons e rest ih =>
    intro n st
    rcases he : e.typ <;>
      simp [extractTrace, snapCountsE, he, List.range'_succ, ih (n + 1)]

/-- Claim C4 (amended): on failure-free runs, each per-entry progress
snapshot is emitted strictly BEFORE the corresponding entry is written
(compress) or materialized (extract) — the trace per entry is OnProgress,
then the snapshot, then the entry's write — snapshots are delivered in
increasing order of entries processed (counters 1, 2, ..., n), and the
final stats value is returned after the whole event trace. -/
theorem C4_amended_snapshot_before_write (base : String) (files : List String)
    (st : CompressStats) (output : String) (entries : List TarEntry)
    (est : ExtractStats)
    (hg : ∀ e ∈ entries, guardOk output e.name = true) :
    ((compressLoop (fun _ => false) (fun _ => true) base files.length 0 files st).events =
        compressTrace base files.length 0 files st ∧
      snapCounts
          (compressLoop (fun _ => false) (fun _ => true) base files.length 0 files st).events =
        List.range' 1 files.length 1 ∧
      (compressLoop (fun _ => false) (fun _ => true) base files.length 0 files st).err = none) ∧
    ((extractTarLoop (fun _ => false) output 0 entries est).events =
        extractTrace output 0 entries est ∧
      snapCountsE (extractTarLoop (fun _ => false) output 0 entries est).events =
        List.range' 1 entries.length 1 ∧
      (extractTarLoop (fun _ => false) output 0 entries est).err = none) := by
  obtain ⟨hce, hcerr⟩ := compressLoop_trace_eq base files.length files 0 st
  obtain ⟨hee, heerr⟩ := extractTarLoop_trace_eq output entries 0 est hg
  refine ⟨⟨hce, ?_, hcerr⟩, ⟨hee, ?_, heerr⟩⟩
  · rw [hce, snapCounts_compressTrace]
  · rw [hee, snapCountsE_extractTrace]

/-- Witness for C4 (amended) on a two-file compress run and a two-entry
TAR extraction. -/
theorem C4_amended_snapshot_before_write_witness :
    ((compressLoop (fun _ => false) (fun _ => true) "/s" ["/s/a", "/s/b"].length 0
        ["/s/a", "/s/b"] ⟨2, 0, 5, 0, 0, "", 0⟩).events =
        compressTrace "/s" ["/s/a", "/s/b"].length 0 ["/s/a", "/s/b"] ⟨2, 0, 5, 0, 0, "", 0⟩ ∧
      snapCounts
          (compressLoop (fun _ => false) (fun _ => true) "/s" ["/s/a", "/s/b"].length 0
            ["/s/a", "/s/b"] ⟨2, 0, 5, 0, 0, "", 0⟩).events =
        List.range' 1 ["/s/a", "/s/b"].length 1 ∧
      (compressLoop (fun _ => false) (fun _ => true) "/s" ["/s/a", "/s/b"].length 0
        ["/s/a", "/s/b"] ⟨2, 0, 5, 0, 0, "", 0⟩).err = none) ∧
    ((extractTarLoop (fun _ => false) "/o" 0
        [⟨"d", TarType.dir, 0, ""⟩, ⟨"f", TarType.reg, 2, ""⟩] zeroExtract).events =
        extractTrace "/o" 0 [⟨"d", TarType.dir, 0, ""⟩, ⟨"f", TarType.reg, 2, ""⟩] zeroExtract ∧
      snapCountsE
          (extractTarLoop (fun _ => false) "/o" 0
            [⟨"d", TarType.dir, 0, ""⟩, ⟨"f", TarType.reg, 2, ""⟩] zeroExtract).events =
        List.range' 1
          ([⟨"d", TarType.dir, 0, ""⟩, ⟨"f", TarType.reg, 2, ""⟩] : List TarEntry).length 1 ∧
      (extractTarLoop (fun _ => false) "/o" 0
        [⟨"d", TarType.dir, 0, ""⟩, ⟨"f", TarType.reg, 2, ""⟩] zeroExtract).err = none) :=
  C4_amended_snapshot_before_write "/s" ["/s/a", "/s/b"] ⟨2, 0, 5, 0, 0, "", 0⟩ "/o"
    [⟨"d", TarType.dir, 0, ""⟩, ⟨"f", TarType.reg, 2, ""⟩] zeroExtract (by decide)

/-- Counterexample to C4 as stated: on a one-file compress run the only
snapshot is emitted at trace position 1 while the write of that same entry
happens at position 2 — the snapshot is NOT emitted after the entry is
written; likewise in a one-entry TAR extraction the snapshot (position 1)
precedes the file's materialization (position 3). -/
theorem C4_counterexample_snapshot_precedes_write :
    (compressLoop (fun _ => false) (fun _ => true) "/s" 1 0 ["/s/a"]
        ⟨1, 0, 3, 0, 0, "", 0⟩).events =
      [CEvent.progress 1 1 "a", CEvent.snapshot ⟨1, 1, 3, 0, 0, "a", 0⟩, CEvent.write "a"] ∧
    (List.findIdx (fun ev => match ev with
        | CEvent.snapshot _ => true
        | _ => false)
      (compressLoop (fun _ => false) (fun _ => true) "/s" 1 0 ["/s/a"]
        ⟨1, 0, 3, 0, 0, "", 0⟩).events) = 1 ∧
    (List.findIdx (fun ev => match ev with
        | CEvent.write _ => true
        | _ => false)
      (compressLoop (fun _ => false) (fun _ => true) "/s" 1 0 ["/s/a"]
        ⟨1, 0, 3, 0, 0, "", 0⟩).events) = 2 ∧
    (extractTarLoop (fun _ => false) "/o" 0 [⟨"f", TarType.reg, 2, ""⟩] zeroExtract).events =
      [EEvent.progress 1 0 "f", EEvent.snapshot ⟨0, 1, 0, 0, "f"⟩,
        EEvent.mkdir "/o", EEvent.writeFile "/o/f" 2] ∧
    (List.findIdx (fun ev => match ev with
        | EEvent.snapshot _ => true
        | _ => false)
      (extractTarLoop (fun _ => false) "/o" 0 [⟨"f", TarType.reg, 2, ""⟩] zeroExtract).events) = 1 ∧
    (List.findIdx (fun ev => match ev with
        | EEvent.writeFile _ _ => true
        | _ => false)
      (extractTarLoop (fun _ => false) "/o" 0 [⟨"f", TarType.reg, 2, ""⟩] zeroExtract).events) = 3 := by
  decide

/-- The stats value the TAR extraction loop carries after having processed
the given entries (starting from count n), without the final TotalFiles
assignment. -/
def extractStatsAfter (output : String) : Nat → List TarEntry → ExtractStats → ExtractStats
  | _, [], st => st
  | n, e :: rest, st =>
    let st1 := { st with ProcessedFiles := n + 1, CurrentFile := e.name }
    match e.typ with
    | TarType.reg => extractStatsAfter output (n + 1) rest
        { st1 with ExtractedSize := st1.ExtractedSize + e.size }
    | _ => extractStatsAfter output (n + 1) rest st1

/-- A rejected entry aborts the TAR extraction loop: the whole run equals
the trace of the accepted entries before it followed by only the two
callback events of the rejected entry — no mkdir, write or symlink event
for the rejected entry or for any later entry — and the error is
PathTraversal naming the rejected entry. -/
theorem extractTarLoop_abort (output : String) (bad : TarEntry) (post : List TarEntry)
    (hbad : guardOk output bad.name = false) :
    ∀ (pre : List TarEntry) (n m : Nat) (st : ExtractStats),
    m = n + pre.length + 1 →
    (∀ e ∈ pre, guardOk output e.name = true) →
    extractTarLoop (fun _ => false) output n (pre ++ bad :: post) st =
      ⟨extractTrace output n pre st ++
        [EEvent.progress m 0 bad.name,
         EEvent.snapshot { extractStatsAfter output n pre st with
           ProcessedFiles := m, CurrentFile := bad.name }],
       { extractStatsAfter output n pre st with
           ProcessedFiles := m, CurrentFile := bad.name },
       some (ArchiveError.pathTraversal bad.name)⟩ := by
  intro pre
  induction pre with
  | nil =>
    intro n m st hm _
    simp only [List.length_nil] at hm
    simp [extractTarLoop, extractTrace, extractStatsAfter, hbad, hm]
  | cons e pre ih =>
    intro n m st hm hpre
    have hm' : m = n + 1 + pre.length + 1 := by
      simp only [List.length_cons] at hm; omega
    have hg : guardOk output e.name = true := hpre e (List.mem_cons_self e pre)
    have hpre' : ∀ x ∈ pre, guardOk output x.name = true :=
      fun x hx => hpre x (List.mem_cons_of_mem e hx)
    rcases he : e.typ
    case dir =>
      have ihe := ih (n + 1) m
        ⟨st.TotalFiles, n + 1, st.TotalSize, st.ExtractedSize, e.name⟩ hm' hpre'
      simp [extractTarLoop, extractTrace, extractStatsAfter, hg, he, ihe]
    case reg =>
      have ihe := ih (n + 1) m
        ⟨st.TotalFiles, n + 1, st.TotalSize, st.ExtractedSize + e.size, e.name⟩ hm' hpre'
      simp [extractTarLoop, extractTrace, extractStatsAfter, hg, he, ihe]
    case symlink =>
      have ihe := ih (n + 1) m
        ⟨st.TotalFiles, n + 1, st.TotalSize, st.ExtractedSize, e.name⟩ hm' hpre'
      simp [extractTarLoop, extractTrace, extractStatsAfter, hg, he, ihe]
    case other =>
      have ihe := ih (n + 1) m
        ⟨st.TotalFiles, n + 1, st.TotalSize, st.ExtractedSize, e.name⟩ hm' hpre'
      simp [extractTarLoop, extractTrace, extractStatsAfter, hg, he, ihe]

/-- Claim C1 (amended): during extraction an entry's target path is
accepted exactly when the cleaned join of the output root and the stored
name has the cleaned output root as a string prefix; a rejected entry makes
the whole run fail with PathTraversal and the run's events are exactly the
trace of the earlier accepted entries followed by the rejected entry's two
callback events — no file or directory is materialized for the rejected or
any later entry. The ../../etc/passwd instance is rejected, creating
nothing, for an output root (such as /tmp/out) whose cleaned form is not a
string prefix of the cleaned target — the restriction the counterexample at
root /e forces — in both the TAR and the ZIP loops. -/
theorem C1_amended_path_guard (output : String) (bad : TarEntry)
    (post pre : List TarEntry) (n m : Nat) (st : ExtractStats)
    (hm : m = n + pre.length + 1)
    (hpre : ∀ e ∈ pre, guardOk output e.name = true)
    (hbad : guardOk output bad.name = false) :
    (∀ out nm, guardOk out nm = strStartsWith (clean (goJoin out nm)) (clean out)) ∧
    extractTarLoop (fun _ => false) output n (pre ++ bad :: post) st =
      ⟨extractTrace output n pre st ++
        [EEvent.progress m 0 bad.name,
         EEvent.snapshot { extractStatsAfter output n pre st with
           ProcessedFiles := m, CurrentFile := bad.name }],
       { extractStatsAfter output n pre st with
           ProcessedFiles := m, CurrentFile := bad.name },
       some (ArchiveError.pathTraversal bad.name)⟩ ∧
    extractTarLoop (fun _ => false) "/tmp/out" 0
        [⟨"../../etc/passwd", TarType.reg, 5, ""⟩] zeroExtract =
      ⟨[EEvent.progress 1 0 "../../etc/passwd",
        EEvent.snapshot ⟨0, 1, 0, 0, "../../etc/passwd"⟩],
       ⟨0, 1, 0, 0, "../../etc/passwd"⟩,
       some (ArchiveError.pathTraversal "../../etc/passwd")⟩ ∧
    extractZipLoop (fun _ => false) "/tmp/out" 1 0
        [⟨"../../etc/passwd", false, 5⟩] ⟨1, 0, 9, 0, ""⟩ =
      ⟨[EEvent.progress 1 1 "../../etc/passwd",
        EEvent.snapshot ⟨1, 1, 9, 0, "../../etc/passwd"⟩],
       ⟨1, 1, 9, 0, "../../etc/passwd"⟩,
       some (ArchiveError.pathTraversal "../../etc/passwd")⟩ :=
  ⟨fun _ _ => rfl,
   extractTarLoop_abort output bad post hbad pre n m st hm hpre,
   by decide, by decide⟩

/-- Witness for C1 (amended): one accepted entry, then the traversal entry,
then one more entry that is never reached. -/
theorem C1_amended_path_guard_witness :
    (∀ out nm, guardOk out nm = strStartsWith (clean (goJoin out nm)) (clean out)) ∧
    extractTarLoop (fun _ => false) "/tmp/out" 0
        ([⟨"ok.txt", TarType.reg, 1, ""⟩] ++
          (⟨"../../etc/passwd", TarType.reg, 5, ""⟩ : TarEntry) ::
            [⟨"later.txt", TarType.reg, 2, ""⟩]) zeroExtract =
      ⟨extractTrace "/tmp/out" 0 [⟨"ok.txt", TarType.reg, 1, ""⟩] zeroExtract ++
        [EEvent.progress 2 0 "../../etc/passwd",
         EEvent.snapshot { extractStatsAfter "/tmp/out" 0
             [⟨"ok.txt", TarType.reg, 1, ""⟩] zeroExtract with
           ProcessedFiles := 2, CurrentFile := "../../etc/passwd" }],
       { extractStatsAfter "/tmp/out" 0 [⟨"ok.txt", TarType.reg, 1, ""⟩] zeroExtract with
           ProcessedFiles := 2, CurrentFile := "../../etc/passwd" },
       some (ArchiveError.pathTraversal "../../etc/passwd")⟩ ∧
    extractTarLoop (fun _ => false) "/tmp/out" 0
        [⟨"../../etc/passwd", TarType.reg, 5, ""⟩] zeroExtract =
      ⟨[EEvent.progress 1 0 "../../etc/passwd",
        EEvent.snapshot ⟨0, 1, 0, 0, "../../etc/passwd"⟩],
       ⟨0, 1, 0, 0, "../../etc/passwd"⟩,
       some (ArchiveError.pathTraversal "../../etc/passwd")⟩ ∧
    extractZipLoop (fun _ => false) "/tmp/out" 1 0
        [⟨"../../etc/passwd", false, 5⟩] ⟨1, 0, 9, 0, ""⟩ =
      ⟨[EEvent.progress 1 1 "../../etc/passwd",
        EEvent.snapshot ⟨1, 1, 9, 0, "../../etc/passwd"⟩],
       ⟨1, 1, 9, 0, "../../etc/passwd"⟩,
       some (ArchiveError.pathTraversal "../../etc/passwd")⟩ :=
  C1_amended_path_guard "/tmp/out" ⟨"../../etc/passwd", TarType.reg, 5, ""⟩
    [⟨"later.txt", TarType.reg, 2, ""⟩] [⟨"ok.txt", TarType.reg, 1, ""⟩]
    0 2 zeroExtract (by decide) (by decide) (by decide)

/-- Counterexample to C1 as stated: with output root /e the cleaned target
of entry ../../etc/passwd is /etc/passwd, whose string form starts with
/e, so the guard accepts it; extraction succeeds (no PathTraversal) and
writes /etc/passwd, a path outside the output directory. -/
theorem C1_counterexample_passwd_accepted :
    guardOk "/e" "../../etc/passwd" = true ∧
    (extractTarLoop (fun _ => false) "/e" 0
        [⟨"../../etc/passwd", TarType.reg, 5, ""⟩] zeroExtract).err = none ∧
    EEvent.writeFile "/etc/passwd" 5 ∈
      (extractTarLoop (fun _ => false) "/e" 0
        [⟨"../../etc/passwd", TarType.reg, 5, ""⟩] zeroExtract).events ∧
    isWithin "/e" "/etc/passwd" = false := by
  decide

/-- The stats value the compress loop carries after having processed the
given entries, starting at index i. -/
def compressStatsAfter (base : String) : Nat → List String → CompressStats → CompressStats
  | _, [], st => st
  | i, f :: rest, st =>
    compressStatsAfter base (i + 1) rest
      { st with ProcessedFiles := i + 1, CurrentFile := (goRel base f).getD (basename f) }

/-- ProcessedFiles after the compress loop has handled a list of entries. -/
theorem compressStatsAfter_processed (base : String) :
    ∀ (l : List String) (i : Nat) (st : CompressStats),
    (compressStatsAfter base i l st).ProcessedFiles =
      if l.isEmpty then st.ProcessedFiles else i + l.length := by
  intro l
  induction l with
  | nil => intro i st; simp [compressStatsAfter]
  | cons f rest ih =>
    intro i st
    rw [compressStatsAfter, ih (i + 1) _]
    cases rest with
    | nil => simp
    | cons g r => simp; omega

/-- ProcessedFiles after the TAR extraction loop has handled a list of
entries. -/
theorem extractStatsAfter_processed (output : String) :
    ∀ (l : List TarEntry) (n : Nat) (st : ExtractStats),
    (extractStatsAfter output n l st).ProcessedFiles =
      if l.isEmpty then st.ProcessedFiles else n + l.length := by
  intro l
  induction l with
  | nil => intro n st; simp [extractStatsAfter]
  | cons e rest ih =>
    intro n st
    rcases he : e.typ <;>
      (rw [extractStatsAfter]; simp only [he]; rw [ih (n + 1) _]
       cases rest with
       | nil => simp
       | cons g r => simp; omega)

/-- When cancellation first becomes visible at the check guarding the entry
with offset k, the compress loop stops there: its result is exactly the
trace and stats of the first k entries together with the Cancelled error
(so no later entry is written and no event is emitted for the entry whose
check observed the cancellation). -/
theorem compressLoop_cancel (ctx : Nat → Bool) (wok : String → Bool)
    (base : String) (total : Nat) (hwok : ∀ f, wok f = true) :
    ∀ (k : Nat) (files : List String) (i : Nat) (st : CompressStats),
    k < files.length →
    (∀ j, j < k → ctx (i + j) = false) →
    ctx (i + k) = true →
    compressLoop ctx wok base total i files st =
      ⟨compressTrace base total i (files.take k) st,
       compressStatsAfter base i (files.take k) st,
       some ArchiveError.cancelled⟩ := by
  intro k
  induction k with
  | zero =>
    intro files i st hlt hfalse htrue
    cases files with
    | nil => simp at hlt
    | cons f rest =>
      have hc : ctx i = true := by simpa using htrue
      simp [compressLoop, hc, compressTrace, compressStatsAfter]
  | succ k ih =>
    intro files i st hlt hfalse htrue
    cases files with
    | nil => simp at hlt
    | cons f rest =>
      have hc : ctx i = false := by simpa using hfalse 0 (Nat.succ_pos k)
      have hw : wok f = true := hwok f
      have hfalse2 : ∀ j, j < k → ctx (i + 1 + j) = false := by
        intro j hj
        have h2 := hfalse (j + 1) (by omega)
        have h3 : i + 1 + j = i + (j + 1) := by omega
        rw [h3]
        exact h2
      have htrue2 : ctx (i + 1 + k) = true := by
        have h3 : i + 1 + k = i + (k + 1) := by omega
        rw [h3]
        exact htrue
      have hlt2 : k < rest.length := by simpa using hlt
      have ihe := ih rest (i + 1)
        ⟨st.TotalFiles, i + 1, st.TotalSize, st.CompressedSize, st.ExcludedFiles,
          (goRel base f).getD (basename f), st.CompressionRate⟩ hlt2 hfalse2 htrue2
      simp [compressLoop, compressTrace, compressStatsAfter, hc, hw, ihe,
        List.take_succ_cons]

/-- The analogue for the TAR extraction loop: first-visible cancellation at
the check made after k entries stops the run with exactly the trace and
stats of those k entries and the Cancelled error. -/
theorem extractTarLoop_cancel (ctx : Nat → Bool) (output : String) :
    ∀ (k : Nat) (entries : List TarEntry) (n : Nat) (st : ExtractStats),
    k < entries.length →
    (∀ j, j < k → ctx (n + j) = false) →
    ctx (n + k) = true →
    (∀ e ∈ entries, guardOk output e.name = true) →
    extractTarLoop ctx output n entries st =
      ⟨extractTrace output n (entries.take k) st,
       extractStatsAfter output n (entries.take k) st,
       some ArchiveError.cancelled⟩ := by
  intro k
  induction k with
  | zero =>
    intro entries n st hlt hfalse htrue hguard
    cases entries with
    | nil => simp at hlt
    | cons e rest =>
      have hc : ctx n = true := by simpa using htrue
      simp [extractTarLoop, hc, extractTrace, extractStatsAfter]
  | succ k ih =>
    intro entries n st hlt hfalse htrue hguard
    cases entries with
    | nil => simp at hlt
    | cons e rest =>
      have hc : ctx n = false := by simpa using hfalse 0 (Nat.succ_pos k)
      have hg : guardOk output e.name = true := hguard e (List.mem_cons_self e rest)
      have hguard2 : ∀ x ∈ rest, guardOk output x.name = true :=
        fun x hx => hguard x (List.mem_cons_of_mem e hx)
      have hfalse2 : ∀ j, j < k → ctx (n + 1 + j) = false := by
        intro j hj
        have h2 := hfalse (j + 1) (by omega)
        have h3 : n + 1 + j = n + (j + 1) := by omega
        rw [h3]
        exact h2
      have htrue2 : ctx (n + 1 + k) = true := by
        have h3 : n + 1 + k = n + (k + 1) := by omega
        rw [h3]
        exact htrue
      have hlt2 : k < rest.length := by simpa using hlt
      rcases he : e.typ
      case dir =>
        have ihe := ih rest (n + 1)
          ⟨st.TotalFiles, n + 1, st.TotalSize, st.ExtractedSize, e.name⟩
          hlt2 hfalse2 htrue2 hguard2
        simp [extractTarLoop, extractTrace, extractStatsAfter, hc, hg, he, ihe,
          List.take_succ_cons]
      case reg =>
        have ihe := ih rest (n + 1)
          ⟨st.TotalFiles, n + 1, st.TotalSize, st.ExtractedSize + e.size, e.name⟩
          hlt2 hfalse2 htrue2 hguard2
        simp [extractTarLoop, extractTrace, extractStatsAfter, hc, hg, he, ihe,
          List.take_succ_cons]
      case symlink =>
        have ihe := ih rest (n + 1)
          ⟨st.TotalFiles, n + 1, st.TotalSize, st.ExtractedSize, e.name⟩
          hlt2 hfalse2 htrue2 hguard2
        simp [extractTarLoop, extractTrace, extractStatsAfter, hc, hg, he, ihe,
          List.take_succ_cons]
      case other =>
        have ihe := ih rest (n + 1)
          ⟨st.TotalFiles, n + 1, st.TotalSize, st.ExtractedSize, e.name⟩
          hlt2 hfalse2 htrue2 hguard2
        simp [extractTarLoop, extractTrace, extractStatsAfter, hc, hg, he, ihe,
          List.take_succ_cons]

/-- Claim C8: cancellation is observed only at the check at the top of each
entry's processing iteration, never mid-entry. If the context reports no
cancellation at the checks made while the first N entries are processed but
reports it by the check after entry N+1, then both loops return a Cancelled
error, the final processedFiles count is at most N+1, and the whole run
equals the trace of the first k entries for some k at most N+1 — so no
entry beyond that point is written or read. All per-entry writes succeed
and every extraction entry passes the path guard, isolating cancellation as
the only failure source. -/
theorem C8_cancellation_bound (ctx : Nat → Bool) (N : Nat)
    (wok : String → Bool) (base output : String) (total : Nat)
    (files : List String) (entries : List TarEntry)
    (st : CompressStats) (est : ExtractStats)
    (hbefore : ∀ i, i < N → ctx i = false)
    (hvis : ctx (N + 1) = true)
    (hwok : ∀ f, wok f = true)
    (hMc : N + 1 < files.length)
    (hMe : N + 1 < entries.length)
    (hguard : ∀ e ∈ entries, guardOk output e.name = true)
    (hst : st.ProcessedFiles = 0)
    (hest : est.ProcessedFiles = 0) :
    ((compressLoop ctx wok base total 0 files st).err = some ArchiveError.cancelled ∧
      (compressLoop ctx wok base total 0 files st).stats.ProcessedFiles ≤ N + 1 ∧
      ∃ k, k ≤ N + 1 ∧
        compressLoop ctx wok base total 0 files st =
          ⟨compressTrace base total 0 (files.take k) st,
           compressStatsAfter base 0 (files.take k) st,
           some ArchiveError.cancelled⟩) ∧
    ((extractTarLoop ctx output 0 entries est).err = some ArchiveError.cancelled ∧
      (extractTarLoop ctx output 0 entries est).stats.ProcessedFiles ≤ N + 1 ∧
      ∃ k, k ≤ N + 1 ∧
        extractTarLoop ctx output 0 entries est =
          ⟨extractTrace output 0 (entries.take k) est,
           extractStatsAfter output 0 (entries.take k) est,
           some ArchiveError.cancelled⟩) := by
  have hk : ∃ k, k ≤ N + 1 ∧ (∀ j, j < k → ctx j = false) ∧ ctx k = true := by
    by_cases hN : ctx N = true
    · exact ⟨N, by omega, fun j hj => hbefore j hj, hN⟩
    · refine ⟨N + 1, le_refl _, ?_, hvis⟩
      intro j hj
      by_cases hjN : j < N
      · exact hbefore j hjN
      · have : j = N := by omega
        rw [this]
        exact Bool.not_eq_true _ |>.mp hN
  obtain ⟨k, hkle, hkfalse, hktrue⟩ := hk
  have hkc : k < files.length := by omega
  have hke : k < entries.length := by omega
  have hfalse0 : ∀ j, j < k → ctx (0 + j) = false := by
    intro j hj
    simpa using hkfalse j hj
  have htrue0c : ctx (0 + k) = true := by simpa using hktrue
  have hcomp := compressLoop_cancel ctx wok base total hwok k files 0 st hkc hfalse0 htrue0c
  have hext := extractTarLoop_cancel ctx output k entries 0 est hke hfalse0 htrue0c hguard
  have htklenc : (files.take k).length = k := List.length_take_of_le (by omega)
  have htklene : (entries.take k).length = k := List.length_take_of_le (by omega)
  refine ⟨⟨?_, ?_, ⟨k, hkle, hcomp⟩⟩, ⟨?_, ?_, ⟨k, hkle, hext⟩⟩⟩
  · rw [hcomp]
  · rw [hcomp]
    have := compressStatsAfter_processed base (files.take k) 0 st
    simp only [this]
    cases hkz : (files.take k).isEmpty
    · simp only [if_false, Bool.false_eq_true]
      omega
    · simp only [if_true]
      omega
  · rw [hext]
  · rw [hext]
    have := extractStatsAfter_processed output (entries.take k) 0 est
    simp only [this]
    cases hkz : (entries.take k).isEmpty
    · simp only [if_false, Bool.false_eq_true]
      omega
    · simp only [if_true]
      omega

/-- Witness for C8 at the concrete context that becomes cancelled once two
entries have been processed (N = 2), on four-entry inputs. -/
theorem C8_cancellation_bound_witness :
    ((compressLoop (fun i => decide (2 ≤ i)) (fun _ => true) "/s" 4 0
        ["/s/a", "/s/b", "/s/c", "/s/d"] ⟨4, 0, 9, 0, 0, "", 0⟩).err =
          some ArchiveError.cancelled ∧
      (compressLoop (fun i => decide (2 ≤ i)) (fun _ => true) "/s" 4 0
        ["/s/a", "/s/b", "/s/c", "/s/d"] ⟨4, 0, 9, 0, 0, "", 0⟩).stats.ProcessedFiles ≤ 2 + 1 ∧
      ∃ k, k ≤ 2 + 1 ∧
        compressLoop (fun i => decide (2 ≤ i)) (fun _ => true) "/s" 4 0
          ["/s/a", "/s/b", "/s/c", "/s/d"] ⟨4, 0, 9, 0, 0, "", 0⟩ =
          ⟨compressTrace "/s" 4 0 (["/s/a", "/s/b", "/s/c", "/s/d"].take k) ⟨4, 0, 9, 0, 0, "", 0⟩,
           compressStatsAfter "/s" 0 (["/s/a", "/s/b", "/s/c", "/s/d"].take k) ⟨4, 0, 9, 0, 0, "", 0⟩,
           some ArchiveError.cancelled⟩) ∧
    ((extractTarLoop (fun i => decide (2 ≤ i)) "/o" 0
        [⟨"a", TarType.reg, 1, ""⟩, ⟨"b", TarType.reg, 1, ""⟩,
         ⟨"c", TarType.reg, 1, ""⟩, ⟨"d", TarType.reg, 1, ""⟩] zeroExtract).err =
          some ArchiveError.cancelled ∧
      (extractTarLoop (fun i => decide (2 ≤ i)) "/o" 0
        [⟨"a", TarType.reg, 1, ""⟩, ⟨"b", TarType.reg, 1, ""⟩,
         ⟨"c", TarType.reg, 1, ""⟩, ⟨"d", TarType.reg, 1, ""⟩] zeroExtract).stats.ProcessedFiles ≤ 2 + 1 ∧
      ∃ k, k ≤ 2 + 1 ∧
        extractTarLoop (fun i => decide (2 ≤ i)) "/o" 0
          [⟨"a", TarType.reg, 1, ""⟩, ⟨"b", TarType.reg, 1, ""⟩,
           ⟨"c", TarType.reg, 1, ""⟩, ⟨"d", TarType.reg, 1, ""⟩] zeroExtract =
          ⟨extractTrace "/o" 0
             ([⟨"a", TarType.reg, 1, ""⟩, ⟨"b", TarType.reg, 1, ""⟩,
               ⟨"c", TarType.reg, 1, ""⟩, ⟨"d", TarType.reg, 1, ""⟩].take k) zeroExtract,
           extractStatsAfter "/o" 0
             ([⟨"a", TarType.reg, 1, ""⟩, ⟨"b", TarType.reg, 1, ""⟩,
               ⟨"c", TarType.reg, 1, ""⟩, ⟨"d", TarType.reg, 1, ""⟩].take k) zeroExtract,
           some ArchiveError.cancelled⟩) :=
  C8_cancellation_bound (fun i => decide (2 ≤ i)) 2 (fun _ => true) "/s" "/o" 4
    ["/s/a", "/s/b", "/s/c", "/s/d"]
    [⟨"a", TarType.reg, 1, ""⟩, ⟨"b", TarType.reg, 1, ""⟩,
     ⟨"c", TarType.reg, 1, ""⟩, ⟨"d", TarType.reg, 1, ""⟩]
    ⟨4, 0, 9, 0, 0, "", 0⟩ zeroExtract
    (fun i hi => decide_eq_false (by omega))
    (by decide) (fun _ => rfl) (by decide) (by decide) (by decide) rfl rfl

end Archiver
